import Mathlib

/-!
Verification development for the ClearCutParenting service workers.

The repository ships a current service worker (version 3.0.0) and a legacy
file concatenating the earlier 1.2.0 and 2.0.0 workers.  This file gives a
shallow embedding of the cache-selection and cache-maintenance core:

* the v3.0.0 fetch-event strategy selector (`isStaticAsset`, `isImageRequest`,
  `isAPIRequest`, `handleFetch`);
* the v3.0.0 strategy executors (`networkFirstStrategy`,
  `staleWhileRevalidateStrategy`) and the v2.0.0 handlers they superseded
  (`V2.handleAPIRequest`, `V2.handleImageRequest`);
* the fallback generators (`generateOfflineFallback`,
  `V2.generateAPIErrorResponse`, `V2.generateImageFallback`);
* the lifecycle cleanup (`cleanupOldCaches`) and install pre-warming
  (`cacheStaticAssets`);
* the maintenance cleanup: v3.0.0 age-based `performCacheCleanup` and the
  v2.0.0 `V2.performCacheCleanup` with its size-budget `V2.trimCache`.

JavaScript strings are modelled as Lean `String`s with the character-list
operations made explicit; network fetches are passed in as explicit
outcomes (`Except String Response`), since the worker only ever observes
whether the promise resolved and with what response.  Cache partitions are
association lists from URL keys to stored responses, and the maintenance
model works on entries abstracted to their date header and materialized
body size, the only two response attributes that code reads.
-/

/-! ## String primitives mirroring the JavaScript string operations -/

/-- JavaScript `String.prototype.includes`: `sub` occurs as a contiguous
substring of `s` (checked position by position). -/
def listIncludes (s sub : List Char) : Bool :=
  match s with
  | [] => sub.isEmpty
  | _ :: t => sub.isPrefixOf s || listIncludes t sub

/-- `url.includes(sub)` on Lean strings. -/
def strIncludes (s sub : String) : Bool :=
  listIncludes s.data sub.data

/-- JavaScript `String.prototype.startsWith`. -/
def strStartsWith (s sub : String) : Bool :=
  sub.data.isPrefixOf s.data

/-- JavaScript `String.prototype.endsWith`. -/
def strEndsWith (s sub : String) : Bool :=
  sub.data.isSuffixOf s.data

/-- JavaScript `String.prototype.toLowerCase`, restricted to the ASCII
case mapping used by the URLs the worker inspects. -/
def strToLower (s : String) : String :=
  String.mk (s.data.map Char.toLower)

/-- Drop through the first occurrence of the `://` scheme separator,
returning everything after it (used by the `new URL(...)` model). -/
def afterSchemeSep : List Char → List Char
  | [] => []
  | c :: rest =>
    if [':', '/', '/'].isPrefixOf (c :: rest) then rest.drop 2
    else afterSchemeSep rest

/-- Take the tail of the list beginning at the first `/` (the start of a
URL path after host and port). -/
def fromFirstSlash : List Char → List Char
  | [] => []
  | c :: rest => if c = '/' then c :: rest else fromFirstSlash rest

/-- Model of `new URL(url).pathname` for the http(s) URLs the worker
handles: the segment of the URL after host and before query or fragment,
defaulting to `/` when the URL has no explicit path. -/
def pathname (url : String) : String :=
  let p := (fromFirstSlash (afterSchemeSep url.data)).takeWhile
    (fun c => !(c = '?' || c = '#'))
  if p.isEmpty then "/" else String.mk p

/-- JavaScript `url.split('/').pop()`: the characters after the last
slash (empty when the string ends in a slash or is empty). -/
def lastSegAux : List Char → List Char → List Char
  | [], acc => acc.reverse
  | c :: rest, acc =>
    if c = '/' then lastSegAux rest [] else lastSegAux rest (c :: acc)

/-- `originalUrl.split('/').pop()` as a string. -/
def lastSegment (s : String) : String :=
  String.mk (lastSegAux s.data [])

/-! ## Requests, responses and cache partitions -/

/-- The request attributes the v3.0.0 worker reads: `request.url`,
`request.method` and `request.mode`. -/
structure Request where
  url : String
  method : String
  mode : String
deriving DecidableEq

/-- A stored or network response: HTTP status, header list and body text.
`new Response(body, init)` defaults the status to 200. -/
structure Response where
  status : Nat
  headers : List (String × String)
  body : String
deriving DecidableEq

/-- `response.ok`: status in the 2xx range. -/
def Response.isOk (r : Response) : Bool :=
  decide (200 ≤ r.status) && decide (r.status < 300)

deriving instance DecidableEq for Except

/-- `headers.get(name)` over the modelled header list. -/
def headerGet (hs : List (String × String)) (name : String) : Option String :=
  (hs.find? (fun kv => kv.1 = name)).map (fun kv => kv.2)

/-- One cache partition: an association list from request URL keys to
stored responses (the Cache API keys GET requests by URL). -/
abbrev Partition : Type := List (String × Response)

/-- `cache.match(request)`: the stored response of the first entry whose
key is the request URL. -/
def lookupCache (c : Partition) (k : String) : Option Response :=
  match c with
  | [] => none
  | kv :: rest => if kv.1 = k then some kv.2 else lookupCache rest k

/-- `cache.put(request, response)`: overwrite the entry for the key when
present, otherwise append a fresh entry. -/
def putEntry (c : Partition) (k : String) (r : Response) : Partition :=
  match c with
  | [] => [(k, r)]
  | kv :: rest => if kv.1 = k then (k, r) :: rest else kv :: putEntry rest k r

/-- The three named partitions of one worker version (static, dynamic,
images); `caches.match(request)` consults all of them. -/
structure Caches where
  static : Partition
  dynamic : Partition
  images : Partition
deriving DecidableEq

/-- `caches.match(request)`: search every partition for the key. -/
def cachesMatch (cs : Caches) (k : String) : Option Response :=
  match lookupCache cs.static k with
  | some r => some r
  | none =>
    match lookupCache cs.dynamic k with
    | some r => some r
    | none => lookupCache cs.images k

/-- The empty cache storage. -/
def emptyCaches : Caches := ⟨[], [], []⟩

/-! ## v3.0.0 constants and strategy selector (src/unnamed/part_000) -/

def CACHE_VERSION : String := "v3.0.0"

def STATIC_CACHE : String := "static-" ++ CACHE_VERSION

def DYNAMIC_CACHE : String := "dynamic-" ++ CACHE_VERSION

def IMAGE_CACHE : String := "images-" ++ CACHE_VERSION

/-- `CRITICAL_ASSETS` of the v3.0.0 worker. -/
def CRITICAL_ASSETS : List String :=
  ["/", "/index.html", "/style.css", "/script.js", "/manifest.json"]

/-- `isStaticAsset(request)` of v3.0.0: substring tests on the raw URL. -/
def isStaticAsset (r : Request) : Bool :=
  strIncludes r.url ".css" ||
  strIncludes r.url ".js" ||
  strIncludes r.url "manifest.json" ||
  strIncludes r.url "fonts.googleapis.com" ||
  strIncludes r.url "fonts.gstatic.com"

/-- The image-extension test of v3.0.0 `isImageRequest`: the regex
`\.(jpg|jpeg|png|gif|webp|avif|svg|ico)$` applied to the lowercased URL. -/
def imageExtTest (url : String) : Bool :=
  let u := strToLower url
  strEndsWith u ".jpg" || strEndsWith u ".jpeg" || strEndsWith u ".png" ||
  strEndsWith u ".gif" || strEndsWith u ".webp" || strEndsWith u ".avif" ||
  strEndsWith u ".svg" || strEndsWith u ".ico"

/-- `isImageRequest(request)` of v3.0.0. -/
def isImageRequest (r : Request) : Bool :=
  imageExtTest r.url || strIncludes (strToLower r.url) "cdn-icons-png.flaticon.com"

/-- `isAPIRequest(request)` of v3.0.0: `new URL(url).pathname.startsWith('/api/')`. -/
def isAPIRequest (r : Request) : Bool :=
  strStartsWith (pathname r.url) "/api/"

/-- The three strategies the v3.0.0 fetch handler dispatches to. -/
inductive Strategy where
  | cacheFirst
  | networkFirst
  | staleWhileRevalidate
deriving DecidableEq

/-- The v3.0.0 fetch event listener as a classifier: `none` when the
request is passed through untouched (non-GET or non-http), otherwise the
strategy whose executor receives the request.  The branch order is the
source order: static assets, then images, then API, then the default. -/
def handleFetch (r : Request) : Option Strategy :=
  if r.method ≠ "GET" then none
  else if !strStartsWith r.url "http" then none
  else if isStaticAsset r then some Strategy.cacheFirst
  else if isImageRequest r then some Strategy.staleWhileRevalidate
  else if isAPIRequest r then some Strategy.networkFirst
  else some Strategy.networkFirst

/-! ## Fallback generators -/

/-- Body of the v3.0.0 offline page.  The inline HTML/CSS payload of
`generateOfflineFallback` (about 190 lines of markup, styling and a
connectivity script) is abbreviated to its document prefix: no claim
depends on the markup text, only on the response headers. -/
def offlineHTML : String := "<!DOCTYPE html>"

/-- `generateOfflineFallback()` of the v3.0.0 worker: the synthesized
offline page, `text/html` with `no-cache`, default status 200. -/
def generateOfflineFallback : Response :=
  { status := 200
    headers := [("Content-Type", "text/html; charset=utf-8"),
                ("Cache-Control", "no-cache")]
    body := offlineHTML }

namespace V2

/-- Leading part of the `JSON.stringify` output of the v2.0.0 API error
object, up to the `timestamp` field. -/
def apiErrorBodyFront : String :=
  "\x7b\"error\":true,\"message\":\"Service temporarily unavailable offline\",\"code\":\"OFFLINE_MODE\",\"offline\":true,\"timestamp\":\""

/-- Trailing part of the v2.0.0 API error JSON after the timestamp. -/
def apiErrorBodyBack : String := "\",\"retry_after\":\"60s\"\x7d"

/-- The `JSON.stringify(errorResponse)` body of `generateAPIErrorResponse`,
parameterized by the `new Date().toISOString()` timestamp. -/
def apiErrorBody (ts : String) : String :=
  apiErrorBodyFront ++ ts ++ apiErrorBodyBack

/-- `generateAPIErrorResponse()` of the v2.0.0 worker: status 503 JSON
with a `Retry-After` header, offline flag and retry hint in the body. -/
def generateAPIErrorResponse (ts : String) : Response :=
  { status := 503
    headers := [("Content-Type", "application/json"),
                ("Cache-Control", "no-cache"),
                ("Retry-After", "60")]
    body := apiErrorBody ts }

/-- The `${fileName}` spliced into the placeholder SVG:
`originalUrl.split('/').pop() || 'image'`. -/
def fallbackFileName (originalUrl : String) : String :=
  let seg := lastSegment originalUrl
  if seg = "" then "image" else seg

/-- The placeholder SVG markup of `generateImageFallback`, with the file
name of the failed URL spliced into the label text. -/
def imageFallbackSVG (originalUrl : String) : String :=
  "\n    <svg width=\"200\" height=\"150\" xmlns=\"http://www.w3.org/2000/svg\" style=\"background: #f8f9fa\">\n      <rect width=\"200\" height=\"150\" fill=\"#e5e7eb\" rx=\"8\"/>\n      <circle cx=\"100\" cy=\"60\" r=\"20\" fill=\"#9ca3af\"/>\n      <path d=\"M70 90 L130 90 L120 110 L80 110 Z\" fill=\"#9ca3af\"/>\n      <text x=\"100\" y=\"130\" text-anchor=\"middle\" fill=\"#6b7280\" font-family=\"system-ui\" font-size=\"12\">\n        "
    ++ fallbackFileName originalUrl ++
  "\n      </text>\n      <text x=\"100\" y=\"145\" text-anchor=\"middle\" fill=\"#9ca3af\" font-family=\"system-ui\" font-size=\"10\">\n        Available offline\n      </text>\n    </svg>\n  "

/-- `generateImageFallback(originalUrl)` of the v2.0.0 worker: the
synthesized `image/svg+xml` placeholder response. -/
def generateImageFallback (originalUrl : String) : Response :=
  { status := 200
    headers := [("Content-Type", "image/svg+xml"),
                ("Cache-Control", "public, max-age=86400")]
    body := imageFallbackSVG originalUrl }

end V2

/-! ## v3.0.0 strategy executors (src/unnamed/part_000)

Each executor is embedded as a function of the request, the outcome of
the one network fetch it issues (`Except.ok` when the fetch promise
resolves, `Except.error` when it rejects), and the current cache storage.
It returns what the caller receives together with the updated storage;
a thrown error is an `Except.error` result. -/

/-- `networkFirstStrategy(request)` of v3.0.0: await the fetch; on
resolution cache 2xx responses in the dynamic partition and return the
live response; on rejection fall back to `caches.match`, then to the
offline page for navigations, and otherwise re-throw the error. -/
def networkFirstStrategy (req : Request) (fetchResult : Except String Response)
    (cs : Caches) : Except String Response × Caches :=
  match fetchResult with
  | Except.ok r =>
    let cs' := if r.isOk then { cs with dynamic := putEntry cs.dynamic req.url r } else cs
    (Except.ok r, cs')
  | Except.error e =>
    match cachesMatch cs req.url with
    | some cached => (Except.ok cached, cs)
    | none =>
      if req.mode = "navigate" then (Except.ok generateOfflineFallback, cs)
      else (Except.error e, cs)

/-- `staleWhileRevalidateStrategy(request)` of v3.0.0.  The cache lookup
result is captured first; a resolved 2xx fetch overwrites the image
partition.  The caller receives the captured cached response when it
exists; otherwise it awaits the fetch, whose rejection handler yields the
captured (absent) cached response — so the result is an `Option`. -/
def staleWhileRevalidateStrategy (req : Request)
    (fetchResult : Except String Response) (cs : Caches) :
    Option Response × Caches :=
  let cached := lookupCache cs.images req.url
  let cs' :=
    match fetchResult with
    | Except.ok r => if r.isOk then { cs with images := putEntry cs.images req.url r } else cs
    | Except.error _ => cs
  match cached with
  | some c => (some c, cs')
  | none =>
    match fetchResult with
    | Except.ok r => (some r, cs')
    | Except.error _ => (cached, cs)

namespace V2

/-- `handleAPIRequest(request)` of the v2.0.0 worker: network first with
dynamic-partition caching of 2xx responses; on rejection serve the
dynamic-partition copy when present, else the synthesized 503 JSON error
(`ts` is the timestamp stamped into that error body). -/
def handleAPIRequest (req : Request) (fetchResult : Except String Response)
    (ts : String) (dyn : Partition) : Response × Partition :=
  match fetchResult with
  | Except.ok r => (r, if r.isOk then putEntry dyn req.url r else dyn)
  | Except.error _ =>
    match lookupCache dyn req.url with
    | some c => (c, dyn)
    | none => (generateAPIErrorResponse ts, dyn)

/-- `handleImageRequest(request)` of the v2.0.0 worker: cache first; on a
hit return the cached copy (the non-awaited `updateCacheInBackground`
refresh is a detached task whose write is not observed by this call); on
a miss await the fetch, caching 2xx responses, and on rejection return
the synthesized SVG placeholder. -/
def handleImageRequest (req : Request) (fetchResult : Except String Response)
    (imgs : Partition) : Response × Partition :=
  match lookupCache imgs req.url with
  | some c => (c, imgs)
  | none =>
    match fetchResult with
    | Except.ok r => (r, if r.isOk then putEntry imgs req.url r else imgs)
    | Except.error _ => (generateImageFallback req.url, imgs)

end V2

/-! ## Lifecycle: activation cleanup and install pre-warming -/

/-- The `currentCaches` array of `cleanupOldCaches` (identical in the
v2.0.0 and v3.0.0 workers up to the version tag; stated here for v3.0.0). -/
def currentCaches : List String := [STATIC_CACHE, DYNAMIC_CACHE, IMAGE_CACHE]

/-- `cleanupOldCaches()`: every existing partition whose name is not in
`currentCaches` is deleted; the survivors are returned. -/
def cleanupOldCaches (cacheNames : List String) : List String :=
  cacheNames.filter (fun n => currentCaches.contains n)

/-- Outcome of one `fetch(asset)` during install. -/
abbrev FetchFn : Type := String → Except String Response

/-- Whether a fetch outcome is a resolved `ok` response (the condition
under which `cacheStaticAssets` writes the asset). -/
def fetchSuccess (fetch : FetchFn) (asset : String) : Bool :=
  match fetch asset with
  | Except.ok r => r.isOk
  | Except.error _ => false

/-- `cacheStaticAssets()` of v3.0.0: each asset is fetched independently;
a resolved `ok` response is written to the static partition, and any
failure is caught per asset, so the pass always settles (the function is
total) and installation is never aborted. -/
def cacheStaticAssets (fetch : FetchFn) (assets : List String)
    (cache : Partition) : Partition :=
  assets.foldl
    (fun c asset =>
      match fetch asset with
      | Except.ok r => if r.isOk then putEntry c asset r else c
      | Except.error _ => c)
    cache

/-! ## Maintenance cleanup (v3.0.0 `performCacheCleanup`; v2.0.0
`performCacheCleanup` with `trimCache`)

A cached entry is abstracted to the attributes the maintenance code
reads: its URL key, `new Date(response.headers.get('date')).getTime()`
when a date header is present, and the materialized `blob.size`. -/

/-- One cached entry as seen by the maintenance worker. -/
structure CachedEntry where
  url : String
  date : Option Int
  size : Nat
deriving DecidableEq

/-- Retention window: `7 * 24 * 60 * 60 * 1000` milliseconds. -/
def maxCacheAge : Int := 7 * 24 * 60 * 60 * 1000

/-- Size budget: `50 * 1024 * 1024` bytes. -/
def maxCacheSize : Nat := 50 * 1024 * 1024

/-- Trim target: `maxCacheSize * 0.8`. -/
def trimTarget : Nat := 41943040

/-- The age-based deletion test: a date header is present and
`now - responseDate > maxAge`.  Entries without a date header are never
age-deleted. -/
def isExpired (now : Int) (e : CachedEntry) : Bool :=
  match e.date with
  | some d => decide (maxCacheAge < now - d)
  | none => false

/-- Entries surviving the age-based deletion pass. -/
def ageSurvivors (now : Int) (p : List CachedEntry) : List CachedEntry :=
  p.filter (fun e => !isExpired now e)

/-- `performCacheCleanup()` of the v3.0.0 worker: the age-based pass
only (the v3.0.0 maintenance has no size accounting or trimming). -/
def performCacheCleanup (now : Int) (p : List CachedEntry) : List CachedEntry :=
  ageSurvivors now p

namespace V2

/-- The sort key of `trimCache`: the date-header timestamp, with a
missing date header read as `0`. -/
def trimKey (e : CachedEntry) : Int :=
  match e.date with
  | some d => d
  | none => 0

/-- Oldest-first order on entries, as compared by the
`(a, b) => a.date - b.date` comparator. -/
def keyLe (a b : CachedEntry) : Prop := trimKey a ≤ trimKey b

instance : DecidableRel keyLe := fun a b => by
  unfold keyLe; infer_instance

/-- Aggregate materialized size of a partition. -/
def totalSize (l : List CachedEntry) : Nat :=
  (l.map (fun e => e.size)).sum

/-- Insert an entry into a date-sorted list (one step of the stable
sort the comparator induces). -/
def insertByKey (e : CachedEntry) : List CachedEntry → List CachedEntry
  | [] => [e]
  | x :: xs => if trimKey e ≤ trimKey x then e :: x :: xs else x :: insertByKey e xs

/-- `entries.sort((a, b) => a.date - b.date)`: the entries in oldest
stored-date-first order. -/
def sortByDate : List CachedEntry → List CachedEntry
  | [] => []
  | e :: rest => insertByKey e (sortByDate rest)

/-- The eviction loop of `trimCache` over the date-sorted entries:
`currentSize` is the aggregate size of the entries not yet deleted, and
the loop stops as soon as it is at or below `maxSize`, otherwise deletes
the oldest remaining entry. -/
def trimGo (maxSize : Nat) : List CachedEntry → List CachedEntry
  | [] => []
  | e :: rest =>
    if totalSize (e :: rest) ≤ maxSize then e :: rest
    else trimGo maxSize rest

/-- `trimCache(cache, maxSize)` of the v2.0.0 worker: sort the entries
oldest first and delete from the front until the aggregate size is at or
below `maxSize`. -/
def trimCache (maxSize : Nat) (l : List CachedEntry) : List CachedEntry :=
  trimGo maxSize (sortByDate l)

/-- `performCacheCleanup()` of the v2.0.0 worker, one partition at a
time: delete entries older than the retention window while accumulating
the surviving aggregate size, then, when that size exceeds the budget,
trim to 80% of the budget. -/
def performCacheCleanup (now : Int) (p : List CachedEntry) : List CachedEntry :=
  let survivors := ageSurvivors now p
  if maxCacheSize < totalSize survivors then trimCache trimTarget survivors
  else survivors

end V2

/-! ## Claim theorems -/

/-- C1 counterexample: the claim is false on the v3.0.0 worker.  The GET
http request for `https://example.com/photo.css.png` matches the image
file extension test, yet the fetch handler dispatches it to
`cacheFirstStrategy` (the static-asset test runs first and `.css`
matches as a substring); likewise the `/api/` request for
`https://example.com/api/data.js` is dispatched to `cacheFirstStrategy`,
not `networkFirstStrategy`. -/
theorem c1_selector_counterexample :
    (imageExtTest "https://example.com/photo.css.png" = true
      ∧ handleFetch ⟨"https://example.com/photo.css.png", "GET", "no-cors"⟩
          = some Strategy.cacheFirst)
  ∧ (isAPIRequest ⟨"https://example.com/api/data.js", "GET", "cors"⟩ = true
      ∧ handleFetch ⟨"https://example.com/api/data.js", "GET", "cors"⟩
          = some Strategy.cacheFirst) := by
  decide

/-- C1 amended: for a GET http request, the v3.0.0 fetch handler
dispatches an image-matching request to `staleWhileRevalidateStrategy`
provided the URL does not also match the static-asset patterns, and an
`/api/` request to `networkFirstStrategy` provided it matches neither
the static-asset nor the image patterns. -/
theorem c1_selector_amended (r : Request) (hm : r.method = "GET")
    (hh : strStartsWith r.url "http" = true) :
    (isImageRequest r = true → isStaticAsset r = false →
      handleFetch r = some Strategy.staleWhileRevalidate)
  ∧ (isAPIRequest r = true → isStaticAsset r = false → isImageRequest r = false →
      handleFetch r = some Strategy.networkFirst) := by
  refine ⟨fun hi hs => ?_, fun ha hs hi => ?_⟩
  · simp [handleFetch, hm, hh, hi, hs]
  · simp [handleFetch, hm, hh, ha, hs, hi]

/-- C1 witness: the amended classification evaluated at a plain image
request and at a plain `/api/` request. -/
theorem c1_selector_amended_witness :
    handleFetch ⟨"https://example.com/pic.png", "GET", "no-cors"⟩
      = some Strategy.staleWhileRevalidate
  ∧ handleFetch ⟨"https://example.com/api/data", "GET", "cors"⟩
      = some Strategy.networkFirst :=
  ⟨(c1_selector_amended ⟨"https://example.com/pic.png", "GET", "no-cors"⟩ rfl
      (by decide)).1 (by decide) (by decide),
   (c1_selector_amended ⟨"https://example.com/api/data", "GET", "cors"⟩ rfl
      (by decide)).2 (by decide) (by decide) (by decide)⟩

/-- C2: whenever the network fetch of `networkFirstStrategy` resolves,
the caller receives exactly the live network response — the cache
fallback path is unreachable, whatever the cache contents. -/
theorem c2_network_first_returns_live (req : Request) (r : Response) (cs : Caches) :
    (networkFirstStrategy req (Except.ok r) cs).1 = Except.ok r := rfl

/-- C5: after activation cleanup a partition name survives exactly when
it existed before and belongs to the current version's expected set,
which for v3.0.0 is `static-v3.0.0`, `dynamic-v3.0.0`, `images-v3.0.0`. -/
theorem c5_activation_cleanup (names : List String) (n : String) :
    (n ∈ cleanupOldCaches names ↔ n ∈ names ∧ n ∈ currentCaches)
  ∧ currentCaches = ["static-v3.0.0", "dynamic-v3.0.0", "images-v3.0.0"] := by
  refine ⟨?_, rfl⟩
  simp [cleanupOldCaches, List.mem_filter, List.elem_iff]

/-! Helper lemmas about the substring test, used to read facts off the
synthesized JSON error body. -/

lemma listIncludes_nil (s : List Char) : listIncludes s [] = true := by
  induction s with
  | nil => rfl
  | cons c t ih => simp [listIncludes, List.isPrefixOf, ih]

lemma listIncludes_append_left (s t sub : List Char)
    (h : listIncludes s sub = true) : listIncludes (s ++ t) sub = true := by
  induction s with
  | nil =>
    simp only [listIncludes, List.isEmpty_iff] at h
    subst h
    exact listIncludes_nil t
  | cons c s ih =>
    simp only [listIncludes, Bool.or_eq_true] at h ⊢
    rcases h with h | h
    · left
      have hp : sub <+: c :: s := List.isPrefixOf_iff_prefix.mp h
      exact List.isPrefixOf_iff_prefix.mpr (hp.trans (List.prefix_append (c :: s) t))
    · right
      exact ih h

lemma listIncludes_append_right (s t sub : List Char)
    (h : listIncludes t sub = true) : listIncludes (s ++ t) sub = true := by
  induction s with
  | nil => simpa using h
  | cons c s ih =>
    simp only [List.cons_append, listIncludes, Bool.or_eq_true]
    right
    exact ih

lemma strIncludes_append_left (s t sub : String)
    (h : strIncludes s sub = true) : strIncludes (s ++ t) sub = true := by
  unfold strIncludes at h ⊢
  rw [String.data_append]
  exact listIncludes_append_left _ _ _ h

lemma strIncludes_append_right (s t sub : String)
    (h : strIncludes t sub = true) : strIncludes (s ++ t) sub = true := by
  unfold strIncludes at h ⊢
  rw [String.data_append]
  exact listIncludes_append_right _ _ _ h

/-- C3 counterexample: the claim is false on the v3.0.0 network-first
executor.  For the non-navigational API request to
`https://example.com/api/data`, a rejected fetch with no cached entry
makes `networkFirstStrategy` re-throw the fetch error: the caller gets
no synthesized response at all, in particular no 503 JSON body. -/
theorem c3_counterexample :
    (networkFirstStrategy ⟨"https://example.com/api/data", "GET", "cors"⟩
      (Except.error "offline") emptyCaches).1 = Except.error "offline" := by
  decide

/-- C3 amended: when the fetch rejects and no cached entry exists, the
v3.0.0 `networkFirstStrategy` returns the synthesized offline HTML page
for navigational requests and re-throws the error for all others; the
synthesized API error — status 503, `Retry-After: 60`, a JSON body with
an explicit offline flag and a retry hint — is produced by the v2.0.0
worker's `handleAPIRequest` via `generateAPIErrorResponse`. -/
theorem c3_network_first_failure_amended (req : Request) (e : String)
    (cs : Caches) (ts : String) (dyn : Partition)
    (h1 : cachesMatch cs req.url = none)
    (h2 : lookupCache dyn req.url = none) :
    (req.mode = "navigate" →
      (networkFirstStrategy req (Except.error e) cs).1
        = Except.ok generateOfflineFallback)
  ∧ (req.mode ≠ "navigate" →
      (networkFirstStrategy req (Except.error e) cs).1 = Except.error e)
  ∧ (V2.handleAPIRequest req (Except.error e) ts dyn).1
      = V2.generateAPIErrorResponse ts
  ∧ (V2.generateAPIErrorResponse ts).status = 503
  ∧ headerGet (V2.generateAPIErrorResponse ts).headers "Retry-After" = some "60"
  ∧ strIncludes (V2.generateAPIErrorResponse ts).body "\"offline\":true" = true
  ∧ strIncludes (V2.generateAPIErrorResponse ts).body "\"retry_after\":\"60s\"" = true := by
  refine ⟨fun hnav => ?_, fun hnav => ?_, ?_, rfl, rfl, ?_, ?_⟩
  · simp [networkFirstStrategy, h1, hnav]
  · simp [networkFirstStrategy, h1, hnav]
  · simp [V2.handleAPIRequest, h2]
  · show strIncludes (V2.apiErrorBodyFront ++ ts ++ V2.apiErrorBodyBack) _ = true
    exact strIncludes_append_left _ _ _
      (strIncludes_append_left _ _ _ (by decide))
  · show strIncludes (V2.apiErrorBodyFront ++ ts ++ V2.apiErrorBodyBack) _ = true
    exact strIncludes_append_right _ _ _ (by decide)

/-- C3 witness: the amended behavior evaluated at a navigational request
(v3.0.0) and at a concrete API request against the v2.0.0 handler. -/
theorem c3_network_first_failure_witness :
    (networkFirstStrategy ⟨"https://example.com/page", "GET", "navigate"⟩
        (Except.error "net") emptyCaches).1 = Except.ok generateOfflineFallback
  ∧ (V2.handleAPIRequest ⟨"https://example.com/api/x", "GET", "cors"⟩
        (Except.error "net") "2025-01-01T00:00:00.000Z" []).1
      = V2.generateAPIErrorResponse "2025-01-01T00:00:00.000Z" :=
  ⟨(c3_network_first_failure_amended ⟨"https://example.com/page", "GET", "navigate"⟩
      "net" emptyCaches "2025-01-01T00:00:00.000Z" [] (by decide) (by decide)).1 rfl,
   (c3_network_first_failure_amended ⟨"https://example.com/api/x", "GET", "cors"⟩
      "net" emptyCaches "2025-01-01T00:00:00.000Z" [] (by decide) (by decide)).2.2.1⟩

/-- C4 counterexample: the claim is false on the v3.0.0
stale-while-revalidate executor.  For the image request
`https://example.com/pic.png` with an empty cache and a rejected fetch,
the executor resolves to the cached response captured at lookup time —
which is absent — so the caller receives an undefined response, not an
SVG placeholder (v3.0.0 has no image placeholder generator). -/
theorem c4_counterexample :
    staleWhileRevalidateStrategy ⟨"https://example.com/pic.png", "GET", "no-cors"⟩
      (Except.error "net") emptyCaches = (none, emptyCaches) := by
  decide

/-- C4 amended: with no cached response at lookup time and a failing
fetch, v3.0.0's `staleWhileRevalidateStrategy` returns the absent
captured lookup result (`none`); the guarantee the claim describes holds
of the v2.0.0 worker's `handleImageRequest`, which returns the
synthesized `image/svg+xml` placeholder in that situation. -/
theorem c4_swr_failure_amended (req : Request) (e : String) (cs : Caches)
    (imgs : Partition)
    (h1 : lookupCache cs.images req.url = none)
    (h2 : lookupCache imgs req.url = none) :
    (staleWhileRevalidateStrategy req (Except.error e) cs).1 = none
  ∧ (V2.handleImageRequest req (Except.error e) imgs).1
      = V2.generateImageFallback req.url
  ∧ headerGet (V2.generateImageFallback req.url).headers "Content-Type"
      = some "image/svg+xml" := by
  refine ⟨?_, ?_, rfl⟩
  · simp [staleWhileRevalidateStrategy, h1]
  · simp [V2.handleImageRequest, h2]

/-- C4 witness: the amended behavior evaluated at a concrete image
request with empty partitions. -/
theorem c4_swr_failure_witness :
    (staleWhileRevalidateStrategy ⟨"https://example.com/pic.png", "GET", "no-cors"⟩
        (Except.error "net") emptyCaches).1 = none
  ∧ (V2.handleImageRequest ⟨"https://example.com/pic.png", "GET", "no-cors"⟩
        (Except.error "net") []).1
      = V2.generateImageFallback "https://example.com/pic.png" :=
  ⟨(c4_swr_failure_amended ⟨"https://example.com/pic.png", "GET", "no-cors"⟩
      "net" emptyCaches [] rfl rfl).1,
   (c4_swr_failure_amended ⟨"https://example.com/pic.png", "GET", "no-cors"⟩
      "net" emptyCaches [] rfl rfl).2.1⟩

/-! Helper lemmas for the install pre-warming pass. -/

lemma lookupCache_putEntry (c : Partition) (k : String) (r : Response) (a : String) :
    lookupCache (putEntry c k r) a = if a = k then some r else lookupCache c a := by
  induction c with
  | nil =>
    by_cases h : a = k
    · subst h
      simp [putEntry, lookupCache]
    · have h' : ¬(k = a) := fun hh => h hh.symm
      simp [putEntry, lookupCache, h, h']
  | cons kv rest ih =>
    by_cases hk : kv.1 = k
    · by_cases h : a = k
      · subst h
        simp [putEntry, lookupCache, hk]
      · have h' : ¬(k = a) := fun hh => h hh.symm
        have hkv : ¬(kv.1 = a) := hk ▸ h'
        simp [putEntry, lookupCache, hk, h, h', hkv]
    · by_cases hkva : kv.1 = a
      · have h : ¬(a = k) := fun hh => hk (hkva.symm ▸ hh)
        simp [putEntry, lookupCache, hk, hkva, h]
      · simp [putEntry, lookupCache, hk, hkva, ih]

lemma lookupCache_cacheStaticAssets (fetch : FetchFn) (assets : List String)
    (c : Partition) (a : String) :
    lookupCache (cacheStaticAssets fetch assets c) a ≠ none ↔
      (lookupCache c a ≠ none ∨ (a ∈ assets ∧ fetchSuccess fetch a = true)) := by
  induction assets generalizing c with
  | nil => simp [cacheStaticAssets]
  | cons b rest ih =>
    have hstep :
        lookupCache
            (match fetch b with
             | Except.ok r => if r.isOk then putEntry c b r else c
             | Except.error _ => c) a ≠ none ↔
          (lookupCache c a ≠ none ∨ (a = b ∧ fetchSuccess fetch a = true)) := by
      cases hf : fetch b with
      | ok r =>
        by_cases hok : r.isOk
        · by_cases hab : a = b
          · subst hab
            simp [hok, lookupCache_putEntry, fetchSuccess, hf]
          · simp [hok, lookupCache_putEntry, hab]
        · by_cases hab : a = b
          · subst hab
            simp [hok, fetchSuccess, hf]
          · simp [hok, hab]
      | error e =>
        by_cases hab : a = b
        · subst hab
          simp [fetchSuccess, hf]
        · simp [hab]
    have hfold : cacheStaticAssets fetch (b :: rest) c =
        cacheStaticAssets fetch rest
          (match fetch b with
           | Except.ok r => if r.isOk then putEntry c b r else c
           | Except.error _ => c) := rfl
    rw [hfold, ih, hstep]
    constructor
    · rintro ((h | h) | h)
      · exact Or.inl h
      · exact Or.inr ⟨by simp [h.1], h.2⟩
      · exact Or.inr ⟨by simp [h.1], h.2⟩
    · rintro (h | ⟨hmem, hok⟩)
      · exact Or.inl (Or.inl h)
      · rcases List.mem_cons.mp hmem with h | h
        · exact Or.inl (Or.inr ⟨h, hok⟩)
        · exact Or.inr ⟨h, hok⟩

/-- C6: the install pre-warming pass isolates per-asset failures — it is
a total function of the per-asset fetch outcomes (so installation always
settles), and starting from an empty static partition an asset ends up
cached exactly when its own fetch resolved with an ok response; a failed
asset is simply absent. -/
theorem c6_install_isolated_failures (fetch : FetchFn) (assets : List String)
    (a : String) (h : a ∈ assets) :
    lookupCache (cacheStaticAssets fetch assets []) a ≠ none ↔
      fetchSuccess fetch a = true := by
  have hmain := lookupCache_cacheStaticAssets fetch assets [] a
  simpa [lookupCache, h] using hmain

/-- C6 witness: installing `['/', '/style.css']` where the fetch of
`/style.css` rejects and the fetch of `/` returns a 200 leaves `/`
cached and `/style.css` absent. -/
theorem c6_install_isolated_failures_witness :
    lookupCache (cacheStaticAssets
        (fun u => if u = "/" then Except.ok ⟨200, [], "home"⟩ else Except.error "fail")
        ["/", "/style.css"] []) "/" ≠ none
  ∧ lookupCache (cacheStaticAssets
        (fun u => if u = "/" then Except.ok ⟨200, [], "home"⟩ else Except.error "fail")
        ["/", "/style.css"] []) "/style.css" = none :=
  ⟨(c6_install_isolated_failures
      (fun u => if u = "/" then Except.ok ⟨200, [], "home"⟩ else Except.error "fail")
      ["/", "/style.css"] "/" (by decide)).mpr (by decide),
   not_ne_iff.mp (fun hne =>
    absurd ((c6_install_isolated_failures
      (fun u => if u = "/" then Except.ok ⟨200, [], "home"⟩ else Except.error "fail")
      ["/", "/style.css"] "/style.css" (by decide)).mp hne) (by decide))⟩

/-! Helper lemmas about the maintenance sort and trim loop. -/

lemma mem_insertByKey {x e : CachedEntry} {l : List CachedEntry} :
    x ∈ V2.insertByKey e l ↔ x = e ∨ x ∈ l := by
  induction l with
  | nil => simp [V2.insertByKey]
  | cons y ys ih =>
    by_cases h : V2.trimKey e ≤ V2.trimKey y
    · simp [V2.insertByKey, h]
    · simp only [V2.insertByKey, if_neg h, List.mem_cons, ih]
      tauto

lemma mem_sortByDate {x : CachedEntry} {l : List CachedEntry} :
    x ∈ V2.sortByDate l ↔ x ∈ l := by
  induction l with
  | nil => simp [V2.sortByDate]
  | cons e ys ih => simp [V2.sortByDate, mem_insertByKey, ih]

lemma perm_insertByKey (e : CachedEntry) (l : List CachedEntry) :
    (V2.insertByKey e l).Perm (e :: l) := by
  induction l with
  | nil => simp [V2.insertByKey]
  | cons y ys ih =>
    by_cases h : V2.trimKey e ≤ V2.trimKey y
    · simp [V2.insertByKey, h]
    · simp only [V2.insertByKey, if_neg h]
      exact (ih.cons y).trans (List.Perm.swap e y ys)

lemma perm_sortByDate (l : List CachedEntry) : (V2.sortByDate l).Perm l := by
  induction l with
  | nil => simp [V2.sortByDate]
  | cons e ys ih =>
    exact (perm_insertByKey e (V2.sortByDate ys)).trans (ih.cons e)

lemma pairwise_insertByKey {e : CachedEntry} {l : List CachedEntry}
    (h : List.Pairwise V2.keyLe l) :
    List.Pairwise V2.keyLe (V2.insertByKey e l) := by
  induction l with
  | nil => simp [V2.insertByKey]
  | cons y ys ih =>
    rcases List.pairwise_cons.mp h with ⟨hy, hys⟩
    by_cases hle : V2.trimKey e ≤ V2.trimKey y
    · simp only [V2.insertByKey, if_pos hle]
      refine List.pairwise_cons.mpr ⟨?_, h⟩
      intro b hb
      rcases List.mem_cons.mp hb with hb | hb
      · exact hb ▸ hle
      · exact le_trans hle (hy b hb)
    · simp only [V2.insertByKey, if_neg hle]
      refine List.pairwise_cons.mpr ⟨?_, ih hys⟩
      intro b hb
      rcases mem_insertByKey.mp hb with hb | hb
      · exact hb ▸ le_of_not_le hle
      · exact hy b hb

lemma pairwise_sortByDate (l : List CachedEntry) :
    List.Pairwise V2.keyLe (V2.sortByDate l) := by
  induction l with
  | nil => simp [V2.sortByDate]
  | cons e ys ih => exact pairwise_insertByKey ih

lemma trimGo_suffix (m : Nat) (l : List CachedEntry) : V2.trimGo m l <:+ l := by
  induction l with
  | nil => simp [V2.trimGo]
  | cons e rest ih =>
    by_cases h : V2.totalSize (e :: rest) ≤ m
    · simp [V2.trimGo, h]
    · simp only [V2.trimGo, if_neg h]
      exact ih.trans (List.suffix_cons e rest)

lemma totalSize_trimGo_le (m : Nat) (l : List CachedEntry) :
    V2.totalSize (V2.trimGo m l) ≤ m := by
  induction l with
  | nil => simp [V2.trimGo, V2.totalSize]
  | cons e rest ih =>
    by_cases h : V2.totalSize (e :: rest) ≤ m
    · simp [V2.trimGo, h]
    · simpa [V2.trimGo, h] using ih

lemma suffix_le_trimGo (m : Nat) (l s : List CachedEntry) (hs : s <:+ l)
    (hsize : V2.totalSize s ≤ m) : s <:+ V2.trimGo m l := by
  induction l with
  | nil =>
    rw [List.suffix_nil.mp hs]
    simp [V2.trimGo]
  | cons e rest ih =>
    by_cases h : V2.totalSize (e :: rest) ≤ m
    · simpa [V2.trimGo, h] using hs
    · simp only [V2.trimGo, if_neg h]
      rcases List.suffix_cons_iff.mp hs with hs | hs
      · exact absurd (hs ▸ hsize) h
      · exact ih hs

lemma isExpired_eq_false_of_mem_cleanupV2 (now : Int) (p : List CachedEntry)
    (x : CachedEntry) (hx : x ∈ V2.performCacheCleanup now p) :
    isExpired now x = false := by
  have hmem : x ∈ ageSurvivors now p := by
    unfold V2.performCacheCleanup at hx
    by_cases h : maxCacheSize < V2.totalSize (ageSurvivors now p)
    · rw [if_pos h] at hx
      exact mem_sortByDate.mp ((trimGo_suffix _ _).subset hx)
    · rwa [if_neg h] at hx
  have := (List.mem_filter.mp hmem).2
  simpa using this

lemma totalSize_cleanupV2_le (now : Int) (p : List CachedEntry) :
    V2.totalSize (V2.performCacheCleanup now p) ≤ maxCacheSize := by
  unfold V2.performCacheCleanup
  by_cases h : maxCacheSize < V2.totalSize (ageSurvivors now p)
  · rw [if_pos h]
    exact le_trans (totalSize_trimGo_le _ _) (by decide)
  · rw [if_neg h]
    exact not_lt.mp h

/-- C7: running the v2.0.0 maintenance cleanup (age-based deletion plus
size trimming) twice in succession with the same current time and no
intervening writes leaves exactly the partition produced by the first
run: the first run leaves no expired entry and an aggregate size within
the budget, so the second run deletes nothing. -/
theorem c7_cleanup_idempotent (now : Int) (p : List CachedEntry) :
    V2.performCacheCleanup now (V2.performCacheCleanup now p)
      = V2.performCacheCleanup now p := by
  have hfilter : ageSurvivors now (V2.performCacheCleanup now p)
      = V2.performCacheCleanup now p :=
    List.filter_eq_self.mpr (fun e he => by
      simp [isExpired_eq_false_of_mem_cleanupV2 now p e he])
  have hle : ¬(maxCacheSize < V2.totalSize (V2.performCacheCleanup now p)) :=
    not_lt.mpr (totalSize_cleanupV2_le now p)
  have hcc : V2.performCacheCleanup now (V2.performCacheCleanup now p)
      = if maxCacheSize <
            V2.totalSize (ageSurvivors now (V2.performCacheCleanup now p)) then
          V2.trimCache trimTarget (ageSurvivors now (V2.performCacheCleanup now p))
        else ageSurvivors now (V2.performCacheCleanup now p) := rfl
  rw [hcc, hfilter, if_neg hle]

/-- C9: the v3.0.0 maintenance cleanup with the 7-day retention window
keeps an entry bearing a date header exactly when its age is within the
window: entries older than 7 days are deleted, younger ones retained. -/
theorem c9_age_retention (now : Int) (p : List CachedEntry)
    (e : CachedEntry) (d : Int) (hmem : e ∈ p) (hd : e.date = some d) :
    e ∈ performCacheCleanup now p ↔ now - d ≤ maxCacheAge := by
  unfold performCacheCleanup ageSurvivors
  rw [List.mem_filter]
  simp [hmem, isExpired, hd, not_lt]

/-- C9 witness: with `now` at 1000000000000 ms, the entry dated 8 days
earlier (age 691200000 ms) is removed and the entry dated 1 day earlier
(age 86400000 ms) is retained. -/
theorem c9_age_retention_witness :
    (⟨"new", some 999913600000, 5⟩ : CachedEntry) ∈
      performCacheCleanup 1000000000000
        [⟨"old", some 999308800000, 5⟩, ⟨"new", some 999913600000, 5⟩]
  ∧ (⟨"old", some 999308800000, 5⟩ : CachedEntry) ∉
      performCacheCleanup 1000000000000
        [⟨"old", some 999308800000, 5⟩, ⟨"new", some 999913600000, 5⟩] :=
  ⟨(c9_age_retention 1000000000000
      [⟨"old", some 999308800000, 5⟩, ⟨"new", some 999913600000, 5⟩]
      ⟨"new", some 999913600000, 5⟩ 999913600000 (by decide) rfl).mpr (by decide),
   fun h => absurd ((c9_age_retention 1000000000000
      [⟨"old", some 999308800000, 5⟩, ⟨"new", some 999913600000, 5⟩]
      ⟨"old", some 999308800000, 5⟩ 999308800000 (by decide) rfl).mp h) (by decide)⟩

/-- C8: the size-trimming policy of the v2.0.0 maintenance cleanup.
When the survivors of the age pass are within the 50 MB budget, no entry
is evicted by size.  When they exceed it, the cleanup evicts a prefix of
the oldest-date-first ordering of the survivors (so the result is a
suffix of that sorted, date-ascending rearrangement), stops as soon as
the aggregate size is at or below 80% of the budget (any suffix already
within the target is kept whole), and the result indeed weighs at most
the 80% target. -/
theorem c8_size_trimming (now : Int) (p : List CachedEntry) :
    (V2.totalSize (ageSurvivors now p) ≤ maxCacheSize →
      V2.performCacheCleanup now p = ageSurvivors now p)
  ∧ (maxCacheSize < V2.totalSize (ageSurvivors now p) →
      V2.totalSize (V2.performCacheCleanup now p) ≤ trimTarget
      ∧ V2.performCacheCleanup now p <:+ V2.sortByDate (ageSurvivors now p)
      ∧ List.Pairwise V2.keyLe (V2.sortByDate (ageSurvivors now p))
      ∧ (V2.sortByDate (ageSurvivors now p)).Perm (ageSurvivors now p)
      ∧ (∀ s, s <:+ V2.sortByDate (ageSurvivors now p) →
          V2.totalSize s ≤ trimTarget → s <:+ V2.performCacheCleanup now p)) := by
  constructor
  · intro h
    unfold V2.performCacheCleanup
    rw [if_neg (not_lt.mpr h)]
  · intro h
    have hcc : V2.performCacheCleanup now p
        = V2.trimGo trimTarget (V2.sortByDate (ageSurvivors now p)) := by
      unfold V2.performCacheCleanup
      rw [if_pos h]
      rfl
    refine ⟨?_, ?_, pairwise_sortByDate _, perm_sortByDate _, ?_⟩
    · rw [hcc]
      exact totalSize_trimGo_le _ _
    · rw [hcc]
      exact trimGo_suffix _ _
    · intro s hs hsize
      rw [hcc]
      exact suffix_le_trimGo _ _ _ hs hsize

/-- C8 witness: a partition within budget is left untouched by the size
pass, and one whose two 30 MB entries exceed the budget is trimmed to at
most the 80% target. -/
theorem c8_size_trimming_witness :
    V2.performCacheCleanup 0 [⟨"a", some 0, 10⟩]
      = ageSurvivors 0 [⟨"a", some 0, 10⟩]
  ∧ V2.totalSize (V2.performCacheCleanup 0
      [⟨"a", some 0, 31457280⟩, ⟨"b", some 1, 31457280⟩]) ≤ trimTarget :=
  ⟨(c8_size_trimming 0 [⟨"a", some 0, 10⟩]).1 (by decide),
   ((c8_size_trimming 0 [⟨"a", some 0, 31457280⟩, ⟨"b", some 1, 31457280⟩]).2
      (by decide)).1⟩

/-- C10: a cached entry without a date header is never removed by the
age-based deletion pass of the maintenance cleanup, whatever the current
time; its sort key in the size-trimming pass is 0, and consequently the
trim evicts it before any entry carrying a positive date-header
timestamp (if some positively-dated entry was evicted, every dateless
entry of that partition was evicted as well). -/
theorem c10_dateless_entries (now : Int) (m : Nat) (p q : List CachedEntry)
    (e : CachedEntry) (hd : e.date = none) :
    (e ∈ p → e ∈ performCacheCleanup now p)
  ∧ V2.trimKey e = 0
  ∧ (∀ e', e' ∈ q → 0 < V2.trimKey e' → e' ∉ V2.trimCache m q →
      e ∉ V2.trimCache m q) := by
  refine ⟨?_, ?_, ?_⟩
  · intro hp
    unfold performCacheCleanup ageSurvivors
    rw [List.mem_filter]
    simp [hp, isExpired, hd]
  · simp [V2.trimKey, hd]
  · intro e' he' hpos hout hin
    rcases trimGo_suffix m (V2.sortByDate q) with ⟨pre, hpre⟩
    have hpair : List.Pairwise V2.keyLe (pre ++ V2.trimGo m (V2.sortByDate q)) := by
      rw [hpre]
      exact pairwise_sortByDate q
    have hsorted := (List.pairwise_append.mp hpair).2.2
    have hein : e ∈ V2.trimGo m (V2.sortByDate q) := hin
    have he'pre : e' ∈ pre := by
      have : e' ∈ V2.sortByDate q := mem_sortByDate.mpr he'
      rw [← hpre] at this
      rcases List.mem_append.mp this with h | h
      · exact h
      · exact absurd h hout
    have hle : V2.keyLe e' e := hsorted e' he'pre e hein
    have : V2.trimKey e' ≤ 0 := by
      have hk : V2.trimKey e = 0 := by simp [V2.trimKey, hd]
      rw [← hk]
      exact hle
    omega

/-- C10 witness: in a partition holding a dateless 10-byte entry and an
entry dated 5 with 10 bytes, trimming to 5 bytes evicts both; the
dateless entry is retained by the v3.0.0 age pass, its sort key is 0,
and since the dated entry was evicted the dateless one was too. -/
theorem c10_dateless_entries_witness :
    (⟨"n", none, 10⟩ : CachedEntry) ∈ performCacheCleanup 0 [⟨"n", none, 10⟩]
  ∧ V2.trimKey ⟨"n", none, 10⟩ = 0
  ∧ (⟨"n", none, 10⟩ : CachedEntry) ∉
      V2.trimCache 5 [⟨"n", none, 10⟩, ⟨"d", some 5, 10⟩] :=
  ⟨(c10_dateless_entries 0 5 [⟨"n", none, 10⟩]
      [⟨"n", none, 10⟩, ⟨"d", some 5, 10⟩] ⟨"n", none, 10⟩ rfl).1 (by decide),
   (c10_dateless_entries 0 5 [⟨"n", none, 10⟩]
      [⟨"n", none, 10⟩, ⟨"d", some 5, 10⟩] ⟨"n", none, 10⟩ rfl).2.1,
   (c10_dateless_entries 0 5 [⟨"n", none, 10⟩]
      [⟨"n", none, 10⟩, ⟨"d", some 5, 10⟩] ⟨"n", none, 10⟩ rfl).2.2
     ⟨"d", some 5, 10⟩ (by decide) (by decide) (by decide)⟩
